import Mathlib

/-!
Verification of the lm75 I2C temperature-sensor driver crate.

The crate root declares the types the driver is built from: the device
address, the configuration register shadow, the fault-queue enumeration,
the resolution enumeration, the sample-rate shadow and the driver struct.
We embed those shallowly: a u8 becomes a Nat smaller than 256, a u16 a
Nat smaller than 65536, the Rust enums become Lean inductives.  The
temperature codec and the device operations live in modules of the crate
that are not part of the sources given here, so they are modelled from
the design document, as marked on each definition.
-/

/- ### Types from the crate root -/

/-- Errors of the crate: a wrapped bus error, invalid input data, and an
unimplemented register. -/
inductive Error (E : Type) where
  | I2C : E → Error E
  | InvalidInputData : Error E
  | InvalidRegister : Error E
deriving DecidableEq

/-- The device base address constant, 0b100_1000. -/
def DEVICE_BASE_ADDRESS : Nat := 0b1001000

/-- The I2C device address newtype over u8. -/
structure Address where
  val : Nat
deriving DecidableEq

/-- The Default impl for Address: the base address. -/
def Address.base : Address := ⟨DEVICE_BASE_ADDRESS⟩

/-- The From u8 impl for Address: wraps the byte unchecked. -/
def Address.ofByte (b : Nat) : Address := ⟨b % 256⟩

/-- The From three-bools impl for Address:
base OR a2 shifted by 2 OR a1 shifted by 1 OR a0. -/
def Address.ofPins (a2 a1 a0 : Bool) : Address :=
  ⟨DEVICE_BASE_ADDRESS ||| (a2.toNat <<< 2) ||| (a1.toNat <<< 1) ||| a0.toNat⟩

/-- The fault queue enum: number of consecutive faults that trigger the
OS condition. -/
inductive FaultQueue where
  | q1 : FaultQueue
  | q2 : FaultQueue
  | q4 : FaultQueue
  | q6 : FaultQueue
deriving DecidableEq

/-- OS polarity enum. -/
inductive OsPolarity where
  | ActiveLow : OsPolarity
  | ActiveHigh : OsPolarity
deriving DecidableEq

/-- OS operation mode enum. -/
inductive OsMode where
  | Comparator : OsMode
  | Interrupt : OsMode
deriving DecidableEq

/-- The device resolution enum.  The discriminant is the mask of the
significant bits of the least-significant temperature byte:
0b1000_0000 for 9-bit parts, 0b1110_0000 for 11-bit parts. -/
inductive Resolution where
  | Mask9bit : Resolution
  | Mask11bit : Resolution
deriving DecidableEq

/-- The numeric discriminant of the Resolution enum in the source. -/
def Resolution.mask : Resolution → Nat
  | .Mask9bit => 0b10000000
  | .Mask11bit => 0b11100000

/-- The Default impl for Resolution: 9-bit. -/
def Resolution.defaultRes : Resolution := Resolution.Mask9bit

/-- The configuration register shadow, a single u8. -/
structure Config where
  bits : Nat
deriving DecidableEq

/-- with_high: set every bit of the mask, keep the rest. -/
def Config.with_high (c : Config) (mask : Nat) : Config :=
  ⟨c.bits ||| mask⟩

/-- with_low: clear every bit of the mask (bitwise AND with the u8
complement of the mask), keep the rest. -/
def Config.with_low (c : Config) (mask : Nat) : Config :=
  ⟨c.bits &&& (mask ^^^ 0xFF)⟩

/-- The Default impl for Config: all bits zero. -/
def Config.defaultConfig : Config := ⟨0⟩

/-- The sample-rate shadow: the optional contents of the T-Idle
register, None on parts that lack it. -/
structure SampleRate where
  bits : Option Nat
deriving DecidableEq

/-- The Default impl for SampleRate: Some 1. -/
def SampleRate.defaultRate : SampleRate := ⟨some 1⟩

/-- SampleRate.none constructor for parts without the register. -/
def SampleRate.noneRate : SampleRate := ⟨Option.none⟩

/- ### Claims about the crate-root types -/

/-- Claim C2: with_high forces every bit inside the mask to 1 and keeps
every bit outside the mask; with_low forces every bit inside the mask to
0 and keeps every bit outside the mask.  Both are total functions on
bytes (results stay below 256). -/
theorem config_with_high_with_low_bits (c m : Nat) (hc : c < 256) (hm : m < 256) :
    (∀ i : Nat, ((Config.mk c).with_high m).bits.testBit i
        = (c.testBit i || m.testBit i))
    ∧ (∀ i : Nat, ((Config.mk c).with_low m).bits.testBit i
        = (c.testBit i && !(m.testBit i)))
    ∧ ((Config.mk c).with_high m).bits < 256
    ∧ ((Config.mk c).with_low m).bits < 256 := by
  have h255 : (0xFF : Nat) = 2 ^ 8 - 1 := by decide
  refine ⟨fun i => by simp [Config.with_high], fun i => ?_, ?_, ?_⟩
  · simp only [Config.with_low, Nat.testBit_and, Nat.testBit_xor, h255,
      Nat.testBit_two_pow_sub_one]
    by_cases h8 : i < 8
    · simp [h8]
    · have hci : c.testBit i = false :=
        Nat.testBit_lt_two_pow (Nat.lt_of_lt_of_le hc
          (Nat.pow_le_pow_right (show 0 < 2 by decide) (Nat.le_of_not_lt h8)))
      simp [h8, hci]
  · exact Nat.or_lt_two_pow (n := 8) hc hm
  · exact Nat.lt_of_le_of_lt Nat.and_le_left hc

/-- Witness for C2 at a concrete byte and mask. -/
theorem config_with_high_with_low_bits_witness :
    (0xB4 : Nat) < 256 ∧ (0x18 : Nat) < 256
    ∧ ((Config.mk 0xB4).with_high 0x18).bits.testBit 3
        = ((0xB4 : Nat).testBit 3 || (0x18 : Nat).testBit 3) := by
  refine ⟨by decide, by decide, ?_⟩
  exact (config_with_high_with_low_bits 0xB4 0x18 (by decide) (by decide)).1 3

/-- Claim C3: with_high with a mask followed by with_low with the same
mask zeroes exactly the bits inside the mask and restores every bit
outside the mask to its original value. -/
theorem config_with_high_then_with_low (c m : Nat) (hc : c < 256) (hm : m < 256) :
    ∀ i : Nat, (((Config.mk c).with_high m).with_low m).bits.testBit i
      = (c.testBit i && !(m.testBit i)) := by
  intro i
  have h255 : (0xFF : Nat) = 2 ^ 8 - 1 := by decide
  simp only [Config.with_high, Config.with_low, Nat.testBit_and,
    Nat.testBit_or, Nat.testBit_xor, h255, Nat.testBit_two_pow_sub_one]
  by_cases h8 : i < 8
  · cases hmi : m.testBit i <;> cases hci : c.testBit i <;> simp [h8, hmi, hci]
  · have hle : 2 ^ 8 ≤ 2 ^ i :=
      Nat.pow_le_pow_right (show 0 < 2 by decide) (Nat.le_of_not_lt h8)
    have hci : c.testBit i = false :=
      Nat.testBit_lt_two_pow (Nat.lt_of_lt_of_le hc hle)
    have hmi : m.testBit i = false :=
      Nat.testBit_lt_two_pow (Nat.lt_of_lt_of_le hm hle)
    simp [h8, hci, hmi]

/-- Witness for C3 at a concrete byte and mask. -/
theorem config_with_high_then_with_low_witness :
    (0xA5 : Nat) < 256 ∧ (0x18 : Nat) < 256
    ∧ (((Config.mk 0xA5).with_high 0x18).with_low 0x18).bits.testBit 0
        = ((0xA5 : Nat).testBit 0 && !((0x18 : Nat).testBit 0)) :=
  ⟨by decide, by decide,
    config_with_high_then_with_low 0xA5 0x18 (by decide) (by decide) 0⟩

/-- Claim C4: the three-pin Address construction equals the literal bit
pattern BASE OR a2 shifted by 2 OR a1 shifted by 1 OR a0; all pins low
gives the default address and all pins high gives 0b1001111. -/
theorem address_ofPins_spec :
    (∀ a2 a1 a0 : Bool, Address.ofPins a2 a1 a0
      = ⟨DEVICE_BASE_ADDRESS ||| (a2.toNat <<< 2) ||| (a1.toNat <<< 1) ||| a0.toNat⟩)
    ∧ Address.ofPins false false false = Address.base
    ∧ Address.ofPins true true true = ⟨0b1001111⟩ := by
  refine ⟨fun a2 a1 a0 => rfl, by decide, by decide⟩

/-- Claim C10: the default resolution is the 9-bit mask, whose step is
half a degree (scale factor 2) and whose least-significant-byte mask has
exactly the top bit (bit 7) set. -/
theorem resolution_default_is_9bit :
    Resolution.defaultRes = Resolution.Mask9bit
    ∧ Resolution.defaultRes.mask = 0b10000000
    ∧ (∀ i : Nat, Resolution.defaultRes.mask.testBit i = decide (7 = i)) := by
  refine ⟨rfl, rfl, fun i => ?_⟩
  have h : Resolution.defaultRes.mask = 2 ^ 7 := by decide
  rw [h, Nat.testBit_two_pow]

/- ### Temperature codec (crate module conversion, absent from the given
sources, modelled from the design document) -/

/-- Modelled from the spec: the active bit width of the temperature
word, 9 significant bits for Mask9bit parts and 11 for Mask11bit. -/
def Resolution.width : Resolution → Nat
  | .Mask9bit => 9
  | .Mask11bit => 11

/-- Modelled from the spec: the left-justification shift into the
16-bit word, 16 minus the active width (7 for 9-bit, 5 for 11-bit). -/
def Resolution.shiftLen (r : Resolution) : Nat := 16 - r.width

/-- Modelled from the spec: the scale factor from degrees to counts,
2 for the half-degree step of 9-bit parts and 8 for the eighth-degree
step of 11-bit parts. -/
def Resolution.scale : Resolution → ℚ
  | .Mask9bit => 2
  | .Mask11bit => 8

/-- The 16-bit significance mask: the whole most-significant byte
together with the resolution's least-significant-byte mask. -/
def Resolution.mask16 (r : Resolution) : Nat := 0xFF00 ||| r.mask

/-- Modelled from the spec: read a value of the given bit width as a
two's-complement signed integer. -/
def toSigned (v wd : Nat) : ℤ :=
  if v < 2 ^ (wd - 1) then (v : ℤ) else (v : ℤ) - 2 ^ wd

/-- Modelled from the spec: encode a temperature at a resolution by
multiplying by the scale, rounding to nearest, taking the 16-bit
two's-complement word left-justified by the shift, and masking away the
bits the resolution leaves undefined. -/
def encodeTemp (t : ℚ) (r : Resolution) : Nat :=
  ((round (t * r.scale) * 2 ^ r.shiftLen) % (2 ^ 16 : ℤ)).toNat &&& r.mask16

/-- Modelled from the spec: decode a 16-bit register word at a
resolution by keeping the significant bits, reading them as a
two's-complement integer of the active width, and dividing by the
scale. -/
def decodeTemp (w : Nat) (r : Resolution) : ℚ :=
  (toSigned ((w &&& r.mask16) >>> r.shiftLen) r.width : ℚ) / r.scale

/-- Masking a left-justified in-range value with the equally justified
width mask changes nothing. -/
theorem land_mask_eq (wd s m : Nat) (hm : m < 2 ^ wd) :
    (m <<< s) &&& ((2 ^ wd - 1) <<< s) = m <<< s := by
  apply Nat.eq_of_testBit_eq
  intro i
  simp only [Nat.testBit_and, Nat.testBit_shiftLeft, Nat.testBit_two_pow_sub_one]
  by_cases hsi : s ≤ i
  · by_cases hw : i - s < wd
    · simp [hsi, hw]
    · have hmi : m.testBit (i - s) = false :=
        Nat.testBit_lt_two_pow (Nat.lt_of_lt_of_le hm
          (Nat.pow_le_pow_right (show 0 < 2 by decide) (Nat.le_of_not_lt hw)))
      simp [hsi, hw, hmi]
  · simp [hsi]

/-- Shifting left then right by the same amount is the identity. -/
theorem shiftLeft_shiftRight_cancel (m s : Nat) : (m <<< s) >>> s = m := by
  rw [Nat.shiftLeft_eq, Nat.shiftRight_eq_div_pow]
  exact Nat.mul_div_cancel m (Nat.pos_pow_of_pos s (by decide))

/-- Claim C1: decoding the word produced by encoding a representable
temperature at a resolution gives back exactly that temperature.  The
representable temperatures at a resolution are the integer multiples n
of the quantization step (half a degree for 9-bit, an eighth for
11-bit) whose count n lies in the two's-complement range of the active
width. -/
theorem decode_encode_roundtrip (r : Resolution) (n : ℤ)
    (h1 : -(2 ^ (r.width - 1)) ≤ n) (h2 : n < 2 ^ (r.width - 1)) :
    decodeTemp (encodeTemp ((n : ℚ) / r.scale) r) r = (n : ℚ) / r.scale := by
  cases r
  case Mask9bit =>
    simp only [Resolution.width] at h1 h2
    norm_num at h1 h2
    have hround : round (((n : ℚ) / 2) * 2) = n := by
      rw [div_mul_cancel₀ ((n : ℚ)) (by norm_num : (2 : ℚ) ≠ 0)]
      exact round_intCast n
    have hlt : (n % 512).toNat < 2 ^ 9 := by
      have := Int.emod_nonneg n (by norm_num : (512 : ℤ) ≠ 0)
      have := Int.emod_lt_of_pos n (by norm_num : (0 : ℤ) < 512)
      norm_num
      omega
    have henc : encodeTemp ((n : ℚ) / 2) Resolution.Mask9bit
        = ((n % 512).toNat <<< 7) &&& ((2 ^ 9 - 1) <<< 7) := by
      simp only [encodeTemp]
      rw [show Resolution.scale Resolution.Mask9bit = (2 : ℚ) from rfl, hround]
      rw [show Resolution.shiftLen Resolution.Mask9bit = 7 from rfl]
      rw [show Resolution.mask16 Resolution.Mask9bit = (2 ^ 9 - 1) <<< 7 from by decide]
      congr 1
      rw [Nat.shiftLeft_eq]
      norm_num
      omega
    have henc2 : encodeTemp ((n : ℚ) / 2) Resolution.Mask9bit
        = (n % 512).toNat <<< 7 := by
      rw [henc]
      exact land_mask_eq 9 7 _ hlt
    show decodeTemp (encodeTemp ((n : ℚ) / 2) Resolution.Mask9bit)
        Resolution.Mask9bit = (n : ℚ) / 2
    rw [henc2]
    simp only [decodeTemp]
    rw [show Resolution.mask16 Resolution.Mask9bit = (2 ^ 9 - 1) <<< 7 from by decide]
    rw [show Resolution.shiftLen Resolution.Mask9bit = 7 from rfl]
    rw [land_mask_eq 9 7 _ hlt, shiftLeft_shiftRight_cancel]
    rw [show Resolution.scale Resolution.Mask9bit = (2 : ℚ) from rfl]
    rw [show Resolution.width Resolution.Mask9bit = 9 from rfl]
    have hsg : toSigned (n % 512).toNat 9 = n := by
      simp only [toSigned]
      norm_num
      split_ifs <;> omega
    rw [hsg]
  case Mask11bit =>
    simp only [Resolution.width] at h1 h2
    norm_num at h1 h2
    have hround : round (((n : ℚ) / 8) * 8) = n := by
      rw [div_mul_cancel₀ ((n : ℚ)) (by norm_num : (8 : ℚ) ≠ 0)]
      exact round_intCast n
    have hlt : (n % 2048).toNat < 2 ^ 11 := by
      have := Int.emod_nonneg n (by norm_num : (2048 : ℤ) ≠ 0)
      have := Int.emod_lt_of_pos n (by norm_num : (0 : ℤ) < 2048)
      norm_num
      omega
    have henc : encodeTemp ((n : ℚ) / 8) Resolution.Mask11bit
        = ((n % 2048).toNat <<< 5) &&& ((2 ^ 11 - 1) <<< 5) := by
      simp only [encodeTemp]
      rw [show Resolution.scale Resolution.Mask11bit = (8 : ℚ) from rfl, hround]
      rw [show Resolution.shiftLen Resolution.Mask11bit = 5 from rfl]
      rw [show Resolution.mask16 Resolution.Mask11bit = (2 ^ 11 - 1) <<< 5 from by decide]
      congr 1
      rw [Nat.shiftLeft_eq]
      norm_num
      omega
    have henc2 : encodeTemp ((n : ℚ) / 8) Resolution.Mask11bit
        = (n % 2048).toNat <<< 5 := by
      rw [henc]
      exact land_mask_eq 11 5 _ hlt
    show decodeTemp (encodeTemp ((n : ℚ) / 8) Resolution.Mask11bit)
        Resolution.Mask11bit = (n : ℚ) / 8
    rw [henc2]
    simp only [decodeTemp]
    rw [show Resolution.mask16 Resolution.Mask11bit = (2 ^ 11 - 1) <<< 5 from by decide]
    rw [show Resolution.shiftLen Resolution.Mask11bit = 5 from rfl]
    rw [land_mask_eq 11 5 _ hlt, shiftLeft_shiftRight_cancel]
    rw [show Resolution.scale Resolution.Mask11bit = (8 : ℚ) from rfl]
    rw [show Resolution.width Resolution.Mask11bit = 11 from rfl]
    have hsg : toSigned (n % 2048).toNat 11 = n := by
      simp only [toSigned]
      norm_num
      split_ifs <;> omega
    rw [hsg]

/-- Witness for C1: minus 25.5 degrees at 9-bit resolution, the count
minus 51, survives the round trip. -/
theorem decode_encode_roundtrip_witness :
    -(2 ^ (Resolution.Mask9bit.width - 1)) ≤ (-51 : ℤ)
    ∧ (-51 : ℤ) < 2 ^ (Resolution.Mask9bit.width - 1)
    ∧ decodeTemp (encodeTemp (((-51 : ℤ) : ℚ) / Resolution.Mask9bit.scale)
        Resolution.Mask9bit) Resolution.Mask9bit
      = ((-51 : ℤ) : ℚ) / Resolution.Mask9bit.scale :=
  ⟨by decide, by decide,
    decode_encode_roundtrip Resolution.Mask9bit (-51) (by decide) (by decide)⟩

/- ### Fault-queue bit patterns (set by the device module, absent from
the given sources, modelled from the design document) -/

/-- Modelled from the spec: the fixed fault-queue bit patterns, a
lookup table and not a computation from the fault count: 00 for 1
fault, 01 for 2, 10 for 4, 11 for 6. -/
def FaultQueue.pattern : FaultQueue → Nat
  | .q1 => 0b00
  | .q2 => 0b01
  | .q4 => 0b10
  | .q6 => 0b11

/-- Modelled from the spec: decode a 2-bit pattern back to the fault
queue variant. -/
def FaultQueue.ofPattern (p : Nat) : Option FaultQueue :=
  if p = 0 then some .q1
  else if p = 1 then some .q2
  else if p = 2 then some .q4
  else if p = 3 then some .q6
  else Option.none

/-- Claim C7: the fault-queue encoding is the fixed bijection 1 to 00,
2 to 01, 4 to 10, 6 to 11: every variant has a distinct 2-bit pattern,
decoding is a left inverse, and each of the four patterns decodes to
exactly its variant. -/
theorem fault_queue_bijection :
    (∀ fq : FaultQueue, FaultQueue.ofPattern fq.pattern = some fq)
    ∧ (∀ fq : FaultQueue, fq.pattern < 4)
    ∧ FaultQueue.q1.pattern = 0b00 ∧ FaultQueue.q2.pattern = 0b01
    ∧ FaultQueue.q4.pattern = 0b10 ∧ FaultQueue.q6.pattern = 0b11
    ∧ FaultQueue.ofPattern 0b00 = some FaultQueue.q1
    ∧ FaultQueue.ofPattern 0b01 = some FaultQueue.q2
    ∧ FaultQueue.ofPattern 0b10 = some FaultQueue.q4
    ∧ FaultQueue.ofPattern 0b11 = some FaultQueue.q6 := by
  refine ⟨fun fq => ?_, fun fq => ?_, rfl, rfl, rfl, rfl, rfl, rfl, rfl, rfl⟩
  · cases fq <;> rfl
  · cases fq <;> decide

/- ### Device operations (crate module device_impl, absent from the
given sources, modelled from the design document) -/

/-- Modelled from the spec: the temperature register pointer. -/
def REG_TEMP : Nat := 0x00

/-- Modelled from the spec: the configuration register pointer. -/
def REG_CONFIG : Nat := 0x01

/-- Modelled from the spec: the hysteresis threshold register pointer. -/
def REG_T_HYST : Nat := 0x02

/-- Modelled from the spec: the overtemperature threshold register pointer. -/
def REG_T_OS : Nat := 0x03

/-- Modelled from the spec: the sample-rate register pointer of the
extended parts. -/
def REG_SAMPLE_RATE : Nat := 0x04

/-- One transport write: the target address and the bytes sent, the
register pointer followed by the data bytes. -/
structure I2CWrite where
  addr : Nat
  data : List Nat
deriving DecidableEq

/-- The transport collaborator, modelled as an oracle deciding the
outcome of each write and of each two-byte read. -/
structure BusModel (E : Type) where
  writeResult : Nat → List Nat → Except E Unit
  readWord : Nat → Nat → Except E (Nat × Nat)

/-- The driver struct of the crate root: the bus handle, the address
and the shadow state. -/
structure Lm75 (E : Type) where
  i2c : BusModel E
  address : Nat
  config : Config
  resolution : Resolution
  sample_rate : SampleRate

/-- Outcome of one driver operation: the returned result, the driver
state afterwards, and the transport writes issued. -/
structure OpResult (E : Type) where
  result : Except (Error E) Unit
  driver : Lm75 E
  calls : List I2CWrite

/-- Modelled from the spec: write a configuration byte to the
configuration register and update the shadow only after the write
succeeded. -/
def Lm75.write_config {E : Type} (d : Lm75 E) (c : Config) : OpResult E :=
  match d.i2c.writeResult d.address [REG_CONFIG, c.bits] with
  | .ok _ => ⟨.ok (), { d with config := c }, [⟨d.address, [REG_CONFIG, c.bits]⟩]⟩
  | .error e => ⟨.error (.I2C e), d, [⟨d.address, [REG_CONFIG, c.bits]⟩]⟩

/-- Modelled from the spec: set the two fault-queue bits (bits 3 and 4)
of the configuration register to the variant's pattern. -/
def Lm75.set_fault_queue {E : Type} (d : Lm75 E) (fq : FaultQueue) : OpResult E :=
  d.write_config ((d.config.with_low 0b11000).with_high (fq.pattern <<< 3))

/-- Modelled from the spec: set or clear the OS mode bit (bit 1). -/
def Lm75.set_os_mode {E : Type} (d : Lm75 E) (m : OsMode) : OpResult E :=
  match m with
  | .Comparator => d.write_config (d.config.with_low 0b10)
  | .Interrupt => d.write_config (d.config.with_high 0b10)

/-- Modelled from the spec: set or clear the OS polarity bit (bit 2). -/
def Lm75.set_os_polarity {E : Type} (d : Lm75 E) (p : OsPolarity) : OpResult E :=
  match p with
  | .ActiveLow => d.write_config (d.config.with_low 0b100)
  | .ActiveHigh => d.write_config (d.config.with_high 0b100)

/-- Modelled from the spec: enable clears the shutdown bit (bit 0). -/
def Lm75.enable {E : Type} (d : Lm75 E) : OpResult E :=
  d.write_config (d.config.with_low 0b1)

/-- Modelled from the spec: disable sets the shutdown bit (bit 0). -/
def Lm75.disable {E : Type} (d : Lm75 E) : OpResult E :=
  d.write_config (d.config.with_high 0b1)

/-- Modelled from the spec: encode a temperature at the configured
resolution and write the two bytes, big-endian, to a threshold
register.  No domain check is performed on the input. -/
def Lm75.write_temp_reg {E : Type} (d : Lm75 E) (reg : Nat) (t : ℚ) : OpResult E :=
  match d.i2c.writeResult d.address
      [reg, encodeTemp t d.resolution >>> 8, encodeTemp t d.resolution % 256] with
  | .ok _ => ⟨.ok (), d,
      [⟨d.address, [reg, encodeTemp t d.resolution >>> 8, encodeTemp t d.resolution % 256]⟩]⟩
  | .error e => ⟨.error (.I2C e), d,
      [⟨d.address, [reg, encodeTemp t d.resolution >>> 8, encodeTemp t d.resolution % 256]⟩]⟩

/-- Modelled from the spec: set the overtemperature threshold. -/
def Lm75.set_os_temperature {E : Type} (d : Lm75 E) (t : ℚ) : OpResult E :=
  d.write_temp_reg REG_T_OS t

/-- Modelled from the spec: set the hysteresis threshold. -/
def Lm75.set_hysteresis_temperature {E : Type} (d : Lm75 E) (t : ℚ) : OpResult E :=
  d.write_temp_reg REG_T_HYST t

/-- Modelled from the spec: on parts without the sample-rate register
the setter succeeds without touching the bus; otherwise it writes one
data byte to the sample-rate register and updates the shadow on
success. -/
def Lm75.set_sample_rate {E : Type} (d : Lm75 E) (v : Nat) : OpResult E :=
  match d.sample_rate.bits with
  | Option.none => ⟨.ok (), d, []⟩
  | some _ =>
    match d.i2c.writeResult d.address [REG_SAMPLE_RATE, v % 256] with
    | .ok _ => ⟨.ok (), { d with sample_rate := ⟨some (v % 256)⟩ },
        [⟨d.address, [REG_SAMPLE_RATE, v % 256]⟩]⟩
    | .error e => ⟨.error (.I2C e), d, [⟨d.address, [REG_SAMPLE_RATE, v % 256]⟩]⟩

/-- Modelled from the spec: read the two temperature bytes and decode
them at the configured resolution; the driver state never changes. -/
def Lm75.read_temperature {E : Type} (d : Lm75 E) : Except (Error E) ℚ × Lm75 E :=
  match d.i2c.readWord d.address REG_TEMP with
  | .ok (msb, lsb) =>
      (.ok (decodeTemp ((msb % 256) <<< 8 ||| lsb % 256) d.resolution), d)
  | .error e => (.error (.I2C e), d)

/- ### Helper lemmas on the operations -/

/-- write_config leaves the shadow untouched on a failed write. -/
theorem write_config_error_shadow {E : Type} (d : Lm75 E) (c : Config)
    (err : Error E) (h : (d.write_config c).result = .error err) :
    (d.write_config c).driver.config = d.config := by
  unfold Lm75.write_config at h ⊢
  cases hw : d.i2c.writeResult d.address [REG_CONFIG, c.bits] <;> simp_all

/-- write_config either succeeds or leaves the shadow untouched. -/
theorem write_config_ok_or_shadow {E : Type} (d : Lm75 E) (c : Config) :
    (d.write_config c).result = .ok () ∨ (d.write_config c).driver.config = d.config := by
  unfold Lm75.write_config
  cases hw : d.i2c.writeResult d.address [REG_CONFIG, c.bits]
  · right; rfl
  · left; rfl

/-- write_config never changes the stored address. -/
theorem write_config_address {E : Type} (d : Lm75 E) (c : Config) :
    (d.write_config c).driver.address = d.address := by
  unfold Lm75.write_config
  cases hw : d.i2c.writeResult d.address [REG_CONFIG, c.bits] <;> rfl

/-- write_config returns success or a wrapped bus error. -/
theorem write_config_result {E : Type} (d : Lm75 E) (c : Config) :
    (d.write_config c).result = .ok ()
    ∨ ∃ e, (d.write_config c).result = .error (Error.I2C e) := by
  unfold Lm75.write_config
  cases hw : d.i2c.writeResult d.address [REG_CONFIG, c.bits]
  · right; exact ⟨_, rfl⟩
  · left; rfl

/-- write_temp_reg never changes the stored address. -/
theorem write_temp_reg_address {E : Type} (d : Lm75 E) (reg : Nat) (t : ℚ) :
    (d.write_temp_reg reg t).driver.address = d.address := by
  unfold Lm75.write_temp_reg
  cases hw : d.i2c.writeResult d.address
      [reg, encodeTemp t d.resolution >>> 8, encodeTemp t d.resolution % 256] <;> rfl

/-- write_temp_reg returns success or a wrapped bus error. -/
theorem write_temp_reg_result {E : Type} (d : Lm75 E) (reg : Nat) (t : ℚ) :
    (d.write_temp_reg reg t).result = .ok ()
    ∨ ∃ e, (d.write_temp_reg reg t).result = .error (Error.I2C e) := by
  unfold Lm75.write_temp_reg
  cases hw : d.i2c.writeResult d.address
      [reg, encodeTemp t d.resolution >>> 8, encodeTemp t d.resolution % 256]
  · right; exact ⟨_, rfl⟩
  · left; rfl

/-- set_sample_rate never changes the stored address. -/
theorem set_sample_rate_address {E : Type} (d : Lm75 E) (v : Nat) :
    (d.set_sample_rate v).driver.address = d.address := by
  unfold Lm75.set_sample_rate
  cases hs : d.sample_rate.bits
  · rfl
  · cases hw : d.i2c.writeResult d.address [REG_SAMPLE_RATE, v % 256] <;> rfl

/-- set_sample_rate returns success or a wrapped bus error. -/
theorem set_sample_rate_result {E : Type} (d : Lm75 E) (v : Nat) :
    (d.set_sample_rate v).result = .ok ()
    ∨ ∃ e, (d.set_sample_rate v).result = .error (Error.I2C e) := by
  unfold Lm75.set_sample_rate
  cases hs : d.sample_rate.bits
  · left; rfl
  · cases hw : d.i2c.writeResult d.address [REG_SAMPLE_RATE, v % 256]
    · right; exact ⟨_, rfl⟩
    · left; rfl

/-- The encoded word always fits in 16 bits, whatever the input. -/
theorem encodeTemp_lt (t : ℚ) (r : Resolution) : encodeTemp t r < 2 ^ 16 := by
  unfold encodeTemp
  refine Nat.lt_of_le_of_lt Nat.and_le_left ?_
  have h1 := Int.emod_nonneg (round (t * r.scale) * 2 ^ r.shiftLen)
    (by norm_num : ((2 : ℤ) ^ 16) ≠ 0)
  have h2 := Int.emod_lt_of_pos (round (t * r.scale) * 2 ^ r.shiftLen)
    (by norm_num : (0 : ℤ) < 2 ^ 16)
  norm_num at h1 h2 ⊢
  omega

/- ### Claims about the device operations -/

/-- Claim C5: for every configuration setter, a failed bus write leaves
the shadow configuration byte exactly as it was before the call, and
the shadow can change only when the write succeeded. -/
theorem config_setters_shadow (E : Type) (d : Lm75 E) (fq : FaultQueue)
    (m : OsMode) (p : OsPolarity) (err : Error E) :
    ((d.set_fault_queue fq).result = .error err →
      (d.set_fault_queue fq).driver.config = d.config)
    ∧ ((d.set_os_mode m).result = .error err →
      (d.set_os_mode m).driver.config = d.config)
    ∧ ((d.set_os_polarity p).result = .error err →
      (d.set_os_polarity p).driver.config = d.config)
    ∧ (d.enable.result = .error err → d.enable.driver.config = d.config)
    ∧ (d.disable.result = .error err → d.disable.driver.config = d.config)
    ∧ ((d.set_fault_queue fq).result = .ok ()
        ∨ (d.set_fault_queue fq).driver.config = d.config)
    ∧ ((d.set_os_mode m).result = .ok ()
        ∨ (d.set_os_mode m).driver.config = d.config)
    ∧ ((d.set_os_polarity p).result = .ok ()
        ∨ (d.set_os_polarity p).driver.config = d.config)
    ∧ (d.enable.result = .ok () ∨ d.enable.driver.config = d.config)
    ∧ (d.disable.result = .ok () ∨ d.disable.driver.config = d.config) := by
  refine ⟨?_, ?_, ?_, ?_, ?_, ?_, ?_, ?_, ?_, ?_⟩
  · intro h; exact write_config_error_shadow d _ err h
  · cases m <;> (intro h; exact write_config_error_shadow d _ err h)
  · cases p <;> (intro h; exact write_config_error_shadow d _ err h)
  · intro h; exact write_config_error_shadow d _ err h
  · intro h; exact write_config_error_shadow d _ err h
  · exact write_config_ok_or_shadow d _
  · cases m <;> exact write_config_ok_or_shadow d _
  · cases p <;> exact write_config_ok_or_shadow d _
  · exact write_config_ok_or_shadow d _
  · exact write_config_ok_or_shadow d _

/-- A transport double whose writes and reads always succeed. -/
def okBus : BusModel Unit := ⟨fun _ _ => .ok (), fun _ _ => .ok (0, 0)⟩

/-- A transport double whose writes and reads always fail. -/
def failBus : BusModel Unit := ⟨fun _ _ => .error (), fun _ _ => .error ()⟩

/-- A concrete driver for a part without the sample-rate register. -/
def noRateDriver : Lm75 Unit :=
  ⟨okBus, DEVICE_BASE_ADDRESS, Config.defaultConfig, Resolution.defaultRes,
    SampleRate.noneRate⟩

/-- A concrete driver whose bus always fails. -/
def failDriver : Lm75 Unit :=
  ⟨failBus, DEVICE_BASE_ADDRESS, ⟨0b10110⟩, Resolution.defaultRes,
    SampleRate.defaultRate⟩

/-- Witness for C5: on a driver whose bus always fails, setting the
fault queue reports the bus error and leaves the shadow byte as it
was. -/
theorem config_setters_shadow_witness :
    (failDriver.set_fault_queue FaultQueue.q4).result = .error (Error.I2C ())
    ∧ (failDriver.set_fault_queue FaultQueue.q4).driver.config
        = failDriver.config := by
  refine ⟨rfl, ?_⟩
  exact (config_setters_shadow Unit failDriver FaultQueue.q4 OsMode.Comparator
    OsPolarity.ActiveLow (Error.I2C ())).1 rfl

/-- Claim C6: on a part without the sample-rate register the setter
succeeds and issues no transport call at all; on a part with the
register it issues exactly one write carrying the register pointer and
one data byte. -/
theorem set_sample_rate_calls (E : Type) (d : Lm75 E) (v : Nat) :
    (d.sample_rate.bits = Option.none →
      (d.set_sample_rate v).result = .ok () ∧ (d.set_sample_rate v).calls = [])
    ∧ (∀ b, d.sample_rate.bits = some b →
      (d.set_sample_rate v).calls = [⟨d.address, [REG_SAMPLE_RATE, v % 256]⟩]) := by
  constructor
  · intro h
    unfold Lm75.set_sample_rate
    rw [h]
    exact ⟨rfl, rfl⟩
  · intro b h
    unfold Lm75.set_sample_rate
    rw [h]
    cases hw : d.i2c.writeResult d.address [REG_SAMPLE_RATE, v % 256] <;> rfl

/-- Witness for C6: the sample-rate setter on a concrete register-less
driver succeeds with an empty transport trace. -/
theorem set_sample_rate_calls_witness :
    noRateDriver.sample_rate.bits = Option.none
    ∧ (noRateDriver.set_sample_rate 5).result = .ok ()
    ∧ (noRateDriver.set_sample_rate 5).calls = [] := by
  refine ⟨rfl, ?_, ?_⟩
  · exact ((set_sample_rate_calls Unit noRateDriver 5).1 rfl).1
  · exact ((set_sample_rate_calls Unit noRateDriver 5).1 rfl).2

/-- A result is success or a wrapped bus error, so in particular it is
never InvalidInputData and never InvalidRegister. -/
def onlyBusErrors {E : Type} (r : Except (Error E) Unit) : Prop :=
  r = .ok () ∨ ∃ e, r = .error (Error.I2C e)

/-- Claim C8: the codec accepts every temperature (the encoded word
always fits the 16-bit register, out-of-range inputs wrapping through
two's complement), and the threshold and configuration setters accept
every input: their only possible failure is a wrapped bus error, never
InvalidInputData. -/
theorem no_invalid_input_data (E : Type) (d : Lm75 E) (t : ℚ)
    (fq : FaultQueue) (m : OsMode) (p : OsPolarity) (v : Nat) :
    encodeTemp t d.resolution < 2 ^ 16
    ∧ onlyBusErrors (d.set_os_temperature t).result
    ∧ onlyBusErrors (d.set_hysteresis_temperature t).result
    ∧ onlyBusErrors (d.set_fault_queue fq).result
    ∧ onlyBusErrors (d.set_os_mode m).result
    ∧ onlyBusErrors (d.set_os_polarity p).result
    ∧ onlyBusErrors d.enable.result
    ∧ onlyBusErrors d.disable.result
    ∧ onlyBusErrors (d.set_sample_rate v).result := by
  refine ⟨encodeTemp_lt t d.resolution, ?_, ?_, ?_, ?_, ?_, ?_, ?_, ?_⟩
  · exact write_temp_reg_result d _ t
  · exact write_temp_reg_result d _ t
  · exact write_config_result d _
  · cases m <;> exact write_config_result d _
  · cases p <;> exact write_config_result d _
  · exact write_config_result d _
  · exact write_config_result d _
  · exact set_sample_rate_result d v

/-- Claim C9: every pin combination yields a base-ORed address that
fits in 7 bits, and no driver operation ever changes the stored
address. -/
theorem address_seven_bit_immutable :
    (∀ a2 a1 a0 : Bool, (Address.ofPins a2 a1 a0).val < 0x80)
    ∧ ∀ (E : Type) (d : Lm75 E) (fq : FaultQueue) (m : OsMode)
        (p : OsPolarity) (t : ℚ) (v : Nat),
      (d.set_fault_queue fq).driver.address = d.address
      ∧ (d.set_os_mode m).driver.address = d.address
      ∧ (d.set_os_polarity p).driver.address = d.address
      ∧ d.enable.driver.address = d.address
      ∧ d.disable.driver.address = d.address
      ∧ (d.set_os_temperature t).driver.address = d.address
      ∧ (d.set_hysteresis_temperature t).driver.address = d.address
      ∧ (d.set_sample_rate v).driver.address = d.address
      ∧ d.read_temperature.2.address = d.address := by
  constructor
  · decide
  · intro E d fq m p t v
    refine ⟨write_config_address d _, ?_, ?_, write_config_address d _,
      write_config_address d _, write_temp_reg_address d _ t,
      write_temp_reg_address d _ t, set_sample_rate_address d v, ?_⟩
    · cases m <;> exact write_config_address d _
    · cases p <;> exact write_config_address d _
    · unfold Lm75.read_temperature
      cases hr : d.i2c.readWord d.address REG_TEMP
      · rfl
      · rfl
